import Mathlib

/-!
Shallow embedding of the incremental-response ingestion and validation
pipeline of the plant-disease-prediction repository (`src/types.ts`).

The single source file contains the data-model declarations
(`EnvironmentalData`, `PredictionData`, `AnalysisRecord`, `PlantProfile`)
and the React `App` component whose `submitAnalysis` callback is the
`AnalysisSessionController` of the specification: it checks preconditions,
clears the streaming state, pulls the previous record from the active
plant's history, consumes the fragment stream produced by
`analyzePlantImage`, accumulates `fullResponse`, runs `JSON.parse`, stamps
the new `AnalysisRecord` and commits it through `addAnalysisToPlant`.

The inference backend (`services/geminiService.ts`) is an external
collaborator: its observable behaviour — the list of fragments produced
and whether the stream ends normally or throws — is an input
(`StreamOutcome`) to the embedded `submitAnalysis`.  `JSON.parse` is the
JavaScript runtime's JSON parser and is embedded below as the executable
`parseJson` (JSON values as the inductive `Json`, numbers as rationals,
last duplicate object key winning, as in ECMAScript).
-/

/-- A JSON value, the result type of the embedded `JSON.parse`.  A number
is kept as the pair of its decimal mantissa and exponent as read from the
input (`num m e` denotes `m · 10 ^ e`), so that parsing stays kernel
computable. -/
inductive Json where
  | null : Json
  | bool (b : Bool) : Json
  | num (mantissa : Int) (exp10 : Int) : Json
  | str (s : String) : Json
  | arr (elems : List Json) : Json
  | obj (fields : List (String × Json)) : Json

/-- Property lookup on a parsed JSON object: as in JavaScript, when a key
occurs several times the last occurrence wins. -/
def lookupField (fields : List (String × Json)) (k : String) : Option Json :=
  (fields.reverse.find? (fun p => p.1 == k)).map (fun p => p.2)

/-- Field access on a JSON value (`none` on non-objects, as reading a
property of a primitive yields `undefined`). -/
def Json.getField : Json → String → Option Json
  | .obj fs, k => lookupField fs k
  | _, _ => none

/-- The opening-brace character, `Char.ofNat 123`. -/
def lbrace : Char := Char.ofNat 123

/-- The closing-brace character, `Char.ofNat 125`. -/
def rbrace : Char := Char.ofNat 125

/-- Skip JSON whitespace (space, tab, newline, carriage return). -/
def skipWs : List Char → List Char
  | [] => []
  | c :: cs =>
    if c = ' ' ∨ c = '\t' ∨ c = '\n' ∨ c = '\r' then skipWs cs else c :: cs

/-- Value of a hexadecimal digit character. -/
def hexVal (c : Char) : Option Nat :=
  if c.isDigit then some (c.toNat - 48)
  else if 'a' ≤ c ∧ c ≤ 'f' then some (c.toNat - 87)
  else if 'A' ≤ c ∧ c ≤ 'F' then some (c.toNat - 55)
  else none

/-- Split a leading run of decimal digits off a character list. -/
def takeDigits : List Char → List Char × List Char
  | [] => ([], [])
  | c :: cs =>
    if c.isDigit then
      let r := takeDigits cs
      (c :: r.1, r.2)
    else ([], c :: cs)

/-- Numeric value of a list of decimal digit characters. -/
def digitsToNat (ds : List Char) : Nat :=
  ds.foldl (fun a c => a * 10 + (c.toNat - 48)) 0

/-- Parse the body of a JSON string literal (the opening quote already
consumed); returns the decoded characters and the rest of the input. -/
def parseStringRest : Nat → List Char → Option (List Char × List Char)
  | 0, _ => none
  | _, [] => none
  | fuel+1, c :: cs =>
    if c = '"' then some ([], cs)
    else if c = '\\' then
      match cs with
      | [] => none
      | e :: cs2 =>
        if e = '"' ∨ e = '\\' ∨ e = '/' then
          (parseStringRest fuel cs2).map (fun r => (e :: r.1, r.2))
        else if e = 'n' then
          (parseStringRest fuel cs2).map (fun r => ('\n' :: r.1, r.2))
        else if e = 't' then
          (parseStringRest fuel cs2).map (fun r => ('\t' :: r.1, r.2))
        else if e = 'r' then
          (parseStringRest fuel cs2).map (fun r => ('\r' :: r.1, r.2))
        else if e = 'b' then
          (parseStringRest fuel cs2).map (fun r => (Char.ofNat 8 :: r.1, r.2))
        else if e = 'f' then
          (parseStringRest fuel cs2).map (fun r => (Char.ofNat 12 :: r.1, r.2))
        else if e = 'u' then
          match cs2 with
          | h1 :: h2 :: h3 :: h4 :: cs3 =>
            match hexVal h1, hexVal h2, hexVal h3, hexVal h4 with
            | some a, some b, some c3, some d =>
              (parseStringRest fuel cs3).map
                (fun r => (Char.ofNat (((a * 16 + b) * 16 + c3) * 16 + d) :: r.1, r.2))
            | _, _, _, _ => none
          | _ => none
        else none
    else (parseStringRest fuel cs).map (fun r => (c :: r.1, r.2))

/-- Parse a JSON number (grammar: optional minus, integer part without
leading zeros, optional fraction, optional exponent), as a decimal
mantissa/exponent pair. -/
def parseNumber (cs : List Char) : Option (Int × Int × List Char) :=
  let signedPart : Bool × List Char :=
    match cs with
    | c :: rest => if c = '-' then (true, rest) else (false, cs)
    | [] => (false, cs)
  let neg := signedPart.1
  let cs1 := signedPart.2
  let ints := takeDigits cs1
  if ints.1.isEmpty then none
  else if ints.1.length > 1 ∧ ints.1.headD '0' = '0' then none
  else
    let fracStep : Option (List Char × List Char) :=
      match ints.2 with
      | c :: rest =>
        if c = '.' then
          let fr := takeDigits rest
          if fr.1.isEmpty then none else some fr
        else some ([], ints.2)
      | [] => some ([], ints.2)
    match fracStep with
    | none => none
    | some (fracs, cs2) =>
      let expStep : Option (Int × List Char) :=
        match cs2 with
        | c :: rest =>
          if c = 'e' ∨ c = 'E' then
            let signedExp : Bool × List Char :=
              match rest with
              | c2 :: rest2 =>
                if c2 = '-' then (true, rest2)
                else if c2 = '+' then (false, rest2)
                else (false, rest)
              | [] => (false, rest)
            let es := takeDigits signedExp.2
            if es.1.isEmpty then none
            else
              some (if signedExp.1 then -(digitsToNat es.1 : Int)
                    else (digitsToNat es.1 : Int), es.2)
          else some (0, cs2)
        | [] => some (0, cs2)
      match expStep with
      | none => none
      | some (e, cs3) =>
        let mantissa : Int := (digitsToNat (ints.1 ++ fracs) : Int)
        some (if neg then -mantissa else mantissa, e - (fracs.length : Int), cs3)

/-- Check for a literal keyword tail (`rue`, `alse`, `ull`). -/
def expectLit (lit : List Char) (cs : List Char) : Option (List Char) :=
  if lit.isPrefixOf cs then some (cs.drop lit.length) else none

mutual

/-- Fueled JSON value parser: one value, returning the rest of the input. -/
def parseValueF : Nat → List Char → Option (Json × List Char)
  | 0, _ => none
  | fuel+1, cs =>
    match skipWs cs with
    | [] => none
    | c :: rest =>
      if c = '"' then
        (parseStringRest (fuel + 1) rest).map
          (fun r => (Json.str (String.mk r.1), r.2))
      else if c = lbrace then parseObjectBody fuel rest
      else if c = '[' then parseArrayBody fuel rest
      else if c = 't' then
        (expectLit ['r', 'u', 'e'] rest).map (fun r => (Json.bool true, r))
      else if c = 'f' then
        (expectLit ['a', 'l', 's', 'e'] rest).map (fun r => (Json.bool false, r))
      else if c = 'n' then
        (expectLit ['u', 'l', 'l'] rest).map (fun r => (Json.null, r))
      else if c = '-' ∨ c.isDigit then
        (parseNumber (c :: rest)).map (fun r => (Json.num r.1 r.2.1, r.2.2))
      else none

/-- Fueled parser for an array body (the `[` already consumed). -/
def parseArrayBody : Nat → List Char → Option (Json × List Char)
  | 0, _ => none
  | fuel+1, cs =>
    match skipWs cs with
    | [] => none
    | c :: rest =>
      if c = ']' then some (Json.arr [], rest)
      else
        (parseArrayItems fuel (c :: rest)).map (fun r => (Json.arr r.1, r.2))

/-- Fueled parser for one-or-more comma-separated array elements. -/
def parseArrayItems : Nat → List Char → Option (List Json × List Char)
  | 0, _ => none
  | fuel+1, cs =>
    match parseValueF fuel cs with
    | none => none
    | some (v, rest) =>
      match skipWs rest with
      | [] => none
      | c :: rest2 =>
        if c = ',' then
          (parseArrayItems fuel rest2).map (fun r => (v :: r.1, r.2))
        else if c = ']' then some ([v], rest2)
        else none

/-- Fueled parser for an object body (the opening brace already consumed). -/
def parseObjectBody : Nat → List Char → Option (Json × List Char)
  | 0, _ => none
  | fuel+1, cs =>
    match skipWs cs with
    | [] => none
    | c :: rest =>
      if c = rbrace then some (Json.obj [], rest)
      else
        (parseObjectItems fuel (c :: rest)).map (fun r => (Json.obj r.1, r.2))

/-- Fueled parser for one-or-more comma-separated object members. -/
def parseObjectItems : Nat → List Char → Option (List (String × Json) × List Char)
  | 0, _ => none
  | fuel+1, cs =>
    match skipWs cs with
    | [] => none
    | c :: rest =>
      if c = '"' then
        match parseStringRest (fuel + 1) rest with
        | none => none
        | some (kcs, rest2) =>
          match skipWs rest2 with
          | [] => none
          | c2 :: rest3 =>
            if c2 = ':' then
              match parseValueF fuel rest3 with
              | none => none
              | some (v, rest4) =>
                match skipWs rest4 with
                | [] => none
                | c3 :: rest5 =>
                  if c3 = ',' then
                    (parseObjectItems fuel rest5).map
                      (fun r => ((String.mk kcs, v) :: r.1, r.2))
                  else if c3 = rbrace then some ([(String.mk kcs, v)], rest5)
                  else none
            else none
      else none

end

/-- The embedded `JSON.parse`: parse a complete JSON document, rejecting
trailing non-whitespace, `none` playing the role of a thrown
`SyntaxError`. -/
def parseJson (s : String) : Option Json :=
  match parseValueF (4 * s.length + 8) s.data with
  | some (v, rest) => if (skipWs rest).isEmpty then some v else none
  | none => none

/-- `EnvironmentalData` from `src/types.ts`: the immutable per-session
context.  Coordinates are modelled as integer micro-degrees (no claim
computes with them). -/
structure EnvironmentalData where
  sunlight : String
  watering : String
  notes : String
  organicPreference : Bool
  location : Option (Int × Int)

/-- `AnalysisRecord` from `src/types.ts`: in `submitAnalysis` it is built
as the object spread `\x7b ...parsedData, id, date, imageUrl,
environmentalData \x7d`, so the four stamped fields override any
same-named keys of the parsed payload while every other key of the parsed
payload (in particular all `PredictionData` fields) is kept unchanged.
`prediction` holds the parsed payload. -/
structure AnalysisRecord where
  prediction : Json
  id : String
  date : String
  imageUrl : String
  environmentalData : EnvironmentalData

/-- `PlantProfile` from `src/types.ts`. -/
structure PlantProfile where
  id : String
  name : String
  analysisHistory : List AnalysisRecord

/-- The `View` union type of the `App` component. -/
inductive View where
  | profilerView : View
  | analysisView : View
  | resultView : View

/-- What a JavaScript `catch` can receive from the stream: a
`SyntaxError`, an ordinary `Error` carrying a message, or a non-`Error`
value. -/
inductive Thrown where
  | syntaxError : Thrown
  | jsError (msg : String) : Thrown
  | otherValue : Thrown

/-- Observable behaviour of the external fragment stream produced by
`analyzePlantImage`: either it yields its fragments and ends normally, or
it yields some fragments and then throws. -/
inductive StreamOutcome where
  | success (frags : List String) : StreamOutcome
  | failure (frags : List String) (thrown : Thrown) : StreamOutcome

/-- The fragments an outcome delivers before terminating. -/
def fragsOf : StreamOutcome → List String
  | .success frags => frags
  | .failure frags _ => frags

/-- The React state of the `App` component that `submitAnalysis` reads
and writes, together with the plant store.  The image blob is opaque and
modelled as a string. -/
structure AppState where
  plantProfiles : List PlantProfile
  activePlant : Option PlantProfile
  imageFile : Option String
  imageUrl : Option String
  environmentalData : EnvironmentalData
  streamingText : String
  finalPrediction : Option AnalysisRecord
  isLoading : Bool
  error : Option String
  currentView : View

/-- Result of one `submitAnalysis` invocation: the final state, the
`previousAnalysis` argument handed to `analyzePlantImage` (`none` when the
engine was never invoked), and the successive values of the
`streamingText` buffer (`buffers.get k` is the buffer after `k` fragments
were consumed). -/
structure SubmitResult where
  state : AppState
  engineArg : Option (Option AnalysisRecord)
  buffers : List String

/-- The precondition message set at `src/types.ts` line 113. -/
def preconditionMsg : String := "An image and an active plant profile are required."

/-- The `SyntaxError` message set at `src/types.ts` line 150. -/
def malformedMsg : String := "Failed to parse the AI response. The data might be malformed."

/-- The non-`Error` message set at `src/types.ts` line 155. -/
def unknownErrorMsg : String := "An unknown error occurred."

/-- Modelled from the spec: the message of the `NotFoundError` thrown by
the history store's append when the profile id is unknown; the store
implementation (`hooks/usePlantStore`) is not under `src/`. -/
def notFoundMsg : String := "NotFoundError"

/-- Model of `URL.createObjectURL`: a displayable reference to the blob. -/
def createObjectURL (file : String) : String := "blob:" ++ file

/-- Modelled from the spec: the per-profile step of the history store's
append (`hooks/usePlantStore` is not under `src/`) — the matching profile
gets the record appended to its history, every other profile is left
untouched; appending is the only mutation path for a profile's history
(spec section 4.3). -/
def appendToProfile (pid : String) (r : AnalysisRecord)
    (q : PlantProfile) : PlantProfile :=
  if q.id == pid then { q with analysisHistory := q.analysisHistory ++ [r] }
  else q

/-- Modelled from the spec: the append operation of the history store; see
`appendToProfile` and the doc comment of `notFoundMsg` (the store's
implementation, `hooks/usePlantStore`, is not under `src/`).  Spec section
4.3: `append(profileId, record) → updated profile`, failing with
`NotFoundError` (here `none`) if `profileId` does not exist. -/
def addAnalysisToPlant (profiles : List PlantProfile) (pid : String)
    (r : AnalysisRecord) : Option (List PlantProfile) :=
  if profiles.any (fun p => p.id == pid) then
    some (profiles.map (appendToProfile pid r))
  else none

/-- Lines 125-127 of `src/types.ts`: the `previousAnalysis` value is the
last element of the active plant's (snapshot) history when that history is
non-empty, else `undefined`. -/
def previousAnalysisOf (plant : PlantProfile) : Option AnalysisRecord :=
  if plant.analysisHistory.length > 0 then
    plant.analysisHistory[plant.analysisHistory.length - 1]?
  else none

/-- Lines 117-121 of `src/types.ts`: state written when an attempt enters
the streaming phase, before any fragment is consumed. -/
def enterStreaming (s : AppState) : AppState :=
  { s with isLoading := true, error := none, finalPrediction := none,
           streamingText := "", currentView := View.resultView }

/-- Concatenation of a fragment list in arrival order. -/
def concatAll : List String → String
  | [] => ""
  | c :: cs => c ++ concatAll cs

/-- The `for await` loop of lines 131-134: starting from accumulator
`acc`, returns the final `fullResponse` together with the list of
successive buffer values (the first entry is the buffer before any
fragment, the last the buffer after all of them). -/
def runChunks : String → List String → String × List String
  | acc, [] => (acc, [acc])
  | acc, c :: cs =>
    let r := runChunks (acc ++ c) cs
    (r.1, acc :: r.2)

/-- The `catch` block of lines 148-156: the message stored for each kind
of thrown value. -/
def errorMessageOf : Thrown → String
  | .syntaxError => malformedMsg
  | .jsError m => m
  | .otherValue => unknownErrorMsg

/-- Lines 137-143 of `src/types.ts`: the new record is the parsed payload
extended with the stamped id and date (each a fresh `Date().toISOString()`
reading), a fresh object URL for the submitted image, and the
environmental data of the session. -/
def mkAnalysisRecord (parsed : Json) (now1 now2 : String) (file : String)
    (env : EnvironmentalData) : AnalysisRecord :=
  { prediction := parsed, id := now1, date := now2,
    imageUrl := createObjectURL file, environmentalData := env }

/-- The `submitAnalysis` callback of `src/types.ts` lines 111-160.
`now1` and `now2` are the two successive wall-clock readings taken by the
two `new Date().toISOString()` calls; `outcome` is the observable
behaviour of the external fragment stream. -/
def submitAnalysis (now1 now2 : String) (outcome : StreamOutcome)
    (s : AppState) : SubmitResult :=
  match s.imageFile, s.activePlant with
  | none, _ =>
    { state := { s with error := some preconditionMsg },
      engineArg := none, buffers := [] }
  | some _, none =>
    { state := { s with error := some preconditionMsg },
      engineArg := none, buffers := [] }
  | some file, some plant =>
    let s1 := enterStreaming s
    let prev := previousAnalysisOf plant
    match outcome with
    | .success frags =>
      let run := runChunks "" frags
      let s2 := { s1 with streamingText := run.1 }
      match parseJson run.1 with
      | some parsed =>
        let newRec := mkAnalysisRecord parsed now1 now2 file s.environmentalData
        match addAnalysisToPlant s2.plantProfiles plant.id newRec with
        | some updated =>
          { state := { s2 with finalPrediction := some newRec,
                               plantProfiles := updated, isLoading := false },
            engineArg := some prev, buffers := run.2 }
        | none =>
          { state := { s2 with finalPrediction := some newRec,
                               error := some notFoundMsg, isLoading := false },
            engineArg := some prev, buffers := run.2 }
      | none =>
        { state := { s2 with error := some malformedMsg, isLoading := false },
          engineArg := some prev, buffers := run.2 }
    | .failure frags thrown =>
      let run := runChunks "" frags
      let s2 := { s1 with streamingText := run.1 }
      { state := { s2 with error := some (errorMessageOf thrown),
                           isLoading := false },
        engineArg := some prev, buffers := run.2 }

/-- Find a profile by id in the store. -/
def findProfile (profiles : List PlantProfile) (pid : String) :
    Option PlantProfile :=
  profiles.find? (fun p => p.id == pid)

/-- Iterated store append, used to state the history invariant. -/
def appendMany (profiles : List PlantProfile) (pid : String) :
    List AnalysisRecord → Option (List PlantProfile)
  | [] => some profiles
  | r :: rs =>
    match addAnalysisToPlant profiles pid r with
    | some ps => appendMany ps pid rs
    | none => none

theorem runChunks_fst (frags : List String) :
    ∀ acc : String, (runChunks acc frags).1 = acc ++ concatAll frags := by
  induction frags with
  | nil => intro acc; simp [runChunks, concatAll]
  | cons c cs ih =>
    intro acc
    simp [runChunks, concatAll, ih (acc ++ c), String.append_assoc]

theorem runChunks_fst_nilAcc (frags : List String) :
    (runChunks "" frags).1 = concatAll frags := by
  simpa using runChunks_fst frags ""

theorem runChunks_snd_length (frags : List String) :
    ∀ acc : String, (runChunks acc frags).2.length = frags.length + 1 := by
  induction frags with
  | nil => intro acc; simp [runChunks]
  | cons c cs ih => intro acc; simp [runChunks, ih (acc ++ c)]

theorem runChunks_snd_get (frags : List String) :
    ∀ (acc : String) (k : Nat) (h : k < (runChunks acc frags).2.length),
      (runChunks acc frags).2.get ⟨k, h⟩ = acc ++ concatAll (frags.take k) := by
  induction frags with
  | nil =>
    intro acc k h
    simp [runChunks] at h
    subst h
    simp [runChunks, concatAll]
  | cons c cs ih =>
    intro acc k h
    match k with
    | 0 => simp [runChunks, concatAll]
    | k + 1 =>
      have h' : k < (runChunks (acc ++ c) cs).2.length := by
        simpa [runChunks] using h
      have := ih (acc ++ c) k h'
      simpa [runChunks, concatAll, String.append_assoc] using this

theorem previousAnalysisOf_eq_getLast? (p : PlantProfile) :
    previousAnalysisOf p = p.analysisHistory.getLast? := by
  unfold previousAnalysisOf
  rcases h : p.analysisHistory with _ | ⟨a, l⟩
  · simp
  · rw [List.getLast?_eq_getElem?]
    simp

theorem findProfile_mem_any (profiles : List PlantProfile) (pid : String)
    (p : PlantProfile) (h : findProfile profiles pid = some p) :
    profiles.any (fun q => q.id == pid) = true := by
  induction profiles with
  | nil => simp [findProfile] at h
  | cons q qs ih =>
    cases hq : q.id == pid with
    | true => simp [hq]
    | false =>
      simp only [findProfile, List.find?, hq] at h
      simp only [List.any_cons, hq, Bool.false_or]
      exact ih h

theorem findProfile_map_append (pid : String) (r : AnalysisRecord)
    (profiles : List PlantProfile) (p : PlantProfile)
    (h : findProfile profiles pid = some p) :
    findProfile (profiles.map (appendToProfile pid r)) pid =
      some { p with analysisHistory := p.analysisHistory ++ [r] } := by
  induction profiles with
  | nil => simp [findProfile] at h
  | cons q qs ih =>
    cases hq : q.id == pid with
    | true =>
      simp only [findProfile, List.find?, hq] at h
      cases h
      simp [findProfile, appendToProfile, hq, List.find?]
    | false =>
      simp only [findProfile, List.find?, hq] at h
      have := ih h
      have hq' : ((appendToProfile pid r q).id == pid) = false := by
        simp [appendToProfile, hq]
      simpa [findProfile, List.find?, hq'] using this

theorem findProfile_addAnalysis (profiles : List PlantProfile) (pid : String)
    (r : AnalysisRecord) (p : PlantProfile)
    (h : findProfile profiles pid = some p) :
    ∃ ps, addAnalysisToPlant profiles pid r = some ps ∧
      findProfile ps pid =
        some { p with analysisHistory := p.analysisHistory ++ [r] } := by
  refine ⟨profiles.map (appendToProfile pid r), ?_, ?_⟩
  · simp [addAnalysisToPlant, findProfile_mem_any profiles pid p h]
  · exact findProfile_map_append pid r profiles p h

theorem appendMany_history (rs : List AnalysisRecord) :
    ∀ (profiles : List PlantProfile) (pid : String) (p : PlantProfile),
      findProfile profiles pid = some p →
      ∃ ps q, appendMany profiles pid rs = some ps ∧
        findProfile ps pid = some q ∧
        q.analysisHistory = p.analysisHistory ++ rs := by
  induction rs with
  | nil =>
    intro profiles pid p h
    exact ⟨profiles, p, rfl, h, by simp⟩
  | cons r rs ih =>
    intro profiles pid p h
    obtain ⟨ps1, hadd, hfind1⟩ := findProfile_addAnalysis profiles pid r p h
    obtain ⟨ps, q, happ, hfind, hhist⟩ := ih ps1 pid _ hfind1
    refine ⟨ps, q, ?_, hfind, ?_⟩
    · simp [appendMany, hadd, happ]
    · simpa [List.append_assoc] using hhist

/-- A sample environmental context for concrete runs. -/
def sampleEnv : EnvironmentalData :=
  { sunlight := "full sun", watering := "daily", notes := "",
    organicPreference := true, location := none }

/-- A fresh plant profile with empty history. -/
def samplePlant : PlantProfile :=
  { id := "p1", name := "Basil", analysisHistory := [] }

/-- A prior analysis record, for runs on a plant with history. -/
def sampleRecord : AnalysisRecord :=
  mkAnalysisRecord (Json.obj []) "2025-12-31T10:00:00.000Z"
    "2025-12-31T10:00:00.000Z" "old-image-bytes" sampleEnv

/-- A plant profile whose history already has one record. -/
def samplePlantTwo : PlantProfile :=
  { id := "p2", name := "Fern", analysisHistory := [sampleRecord] }

/-- A ready-to-submit application state: image selected, active plant
with empty history, stale streaming text from a previous attempt. -/
def sampleState : AppState :=
  { plantProfiles := [samplePlant, samplePlantTwo],
    activePlant := some samplePlant,
    imageFile := some "leaf-image-bytes",
    imageUrl := some "blob:leaf-image-bytes",
    environmentalData := sampleEnv,
    streamingText := "stale text",
    finalPrediction := none,
    isLoading := false,
    error := none,
    currentView := View.analysisView }

/-- Like `sampleState`, but the active plant is the one with history. -/
def sampleStateTwo : AppState := { sampleState with activePlant := some samplePlantTwo }

/-- A state with no image selected. -/
def noImageState : AppState := { sampleState with imageFile := none }

/-- A state with no image selected while the loading flag is still set. -/
def loadingNoImageState : AppState :=
  { sampleState with imageFile := none, isLoading := true }

/-- A syntactically valid payload that violates the `PredictionData`
shape: every required field is missing and `confidenceScore` is `5`,
outside `[0,1]`. -/
def badPayload : String := "\x7b\"confidenceScore\":5\x7d"

/-- A syntactically valid payload object. -/
def goodPayload : String := "\x7b\"plantName\":\"Basil\"\x7d"

/-- The parse of `goodPayload`. -/
def basilJson : Json := Json.obj [("plantName", Json.str "Basil")]

/-- Claim C8: if no image or no active plant profile is set, the attempt
fails immediately with the precondition error and nothing else changes:
the returned state is the input state with only `error` set, so the
history store, the partial-text buffer, the prior result and the loading
flag are untouched, and the engine is never invoked. -/
theorem submitAnalysis_precondition_no_mutation (s : AppState)
    (now1 now2 : String) (outcome : StreamOutcome)
    (h : s.imageFile = none ∨ s.activePlant = none) :
    (submitAnalysis now1 now2 outcome s).state
        = { s with error := some preconditionMsg }
    ∧ (submitAnalysis now1 now2 outcome s).engineArg = none := by
  rcases h with h | h
  · simp [submitAnalysis, h]
  · cases hi : s.imageFile <;> simp [submitAnalysis, h, hi]

/-- Witness for C8 at a concrete state with no image selected. -/
theorem submitAnalysis_precondition_no_mutation_witness :
    (noImageState.imageFile = none ∨ noImageState.activePlant = none)
    ∧ ((submitAnalysis "t1" "t2" (StreamOutcome.success ["x"]) noImageState).state
        = { noImageState with error := some preconditionMsg }
      ∧ (submitAnalysis "t1" "t2" (StreamOutcome.success ["x"]) noImageState).engineArg
        = none) :=
  ⟨Or.inl rfl,
   submitAnalysis_precondition_no_mutation noImageState "t1" "t2"
     (StreamOutcome.success ["x"]) (Or.inl rfl)⟩

theorem submitAnalysis_engineArg (s : AppState) (img : String)
    (plant : PlantProfile) (now1 now2 : String) (outcome : StreamOutcome)
    (himg : s.imageFile = some img) (hplant : s.activePlant = some plant) :
    (submitAnalysis now1 now2 outcome s).engineArg
      = some (previousAnalysisOf plant) := by
  cases outcome with
  | success frags =>
    simp only [submitAnalysis, himg, hplant]
    cases hp : parseJson (runChunks "" frags).1 with
    | none => simp [hp]
    | some v =>
      simp only [hp]
      cases addAnalysisToPlant (enterStreaming s).plantProfiles plant.id
          (mkAnalysisRecord v now1 now2 img s.environmentalData) <;> simp
  | failure frags thrown => simp [submitAnalysis, himg, hplant]

/-- Claim C4: when the preconditions hold, the engine's `previousRecord`
argument is exactly the last element of the active plant's history, and
absent when that history is empty (`previousAnalysisOf` is the code's
`length > 0` indexing, shown equal to `getLast?`). -/
theorem submitAnalysis_previousRecord (s : AppState) (img : String)
    (plant : PlantProfile) (now1 now2 : String) (outcome : StreamOutcome)
    (himg : s.imageFile = some img) (hplant : s.activePlant = some plant) :
    (submitAnalysis now1 now2 outcome s).engineArg
      = some plant.analysisHistory.getLast?
    ∧ (plant.analysisHistory = [] → plant.analysisHistory.getLast? = none)
    ∧ ∀ h : plant.analysisHistory ≠ [],
        plant.analysisHistory.getLast? = some (plant.analysisHistory.getLast h) := by
  refine ⟨?_, ?_, ?_⟩
  · rw [submitAnalysis_engineArg s img plant now1 now2 outcome himg hplant,
      previousAnalysisOf_eq_getLast?]
  · intro h; simp [h]
  · intro h; exact List.getLast?_eq_getLast plant.analysisHistory h

/-- Witness for C4 at a plant with one prior record: the engine receives
exactly that record. -/
theorem submitAnalysis_previousRecord_witness :
    sampleStateTwo.imageFile = some "leaf-image-bytes"
    ∧ sampleStateTwo.activePlant = some samplePlantTwo
    ∧ (submitAnalysis "t1" "t2" (StreamOutcome.success [goodPayload])
        sampleStateTwo).engineArg = some samplePlantTwo.analysisHistory.getLast?
    ∧ samplePlantTwo.analysisHistory.getLast? = some sampleRecord :=
  ⟨rfl, rfl,
   (submitAnalysis_previousRecord sampleStateTwo "leaf-image-bytes" samplePlantTwo
      "t1" "t2" (StreamOutcome.success [goodPayload]) rfl rfl).1,
   rfl⟩

/-- Claim C1: for a successful attempt (preconditions hold, the stream
delivers its fragments and ends normally, the concatenation of the
fragments in arrival order parses, the active profile exists in the
store), the final `AnalysisRecord` carries exactly the parse of
`concat(F1..Fn)` as its `PredictionData` payload — `mkAnalysisRecord`
keeps the parsed value whole and only adds the four stamped fields — and
the attempt ends without error. -/
theorem submitAnalysis_success_fields (s : AppState) (img : String)
    (plant : PlantProfile) (frags : List String) (v : Json)
    (now1 now2 : String)
    (himg : s.imageFile = some img) (hplant : s.activePlant = some plant)
    (hparse : parseJson (concatAll frags) = some v)
    (hmem : s.plantProfiles.any (fun p => p.id == plant.id) = true) :
    (submitAnalysis now1 now2 (StreamOutcome.success frags) s).state.finalPrediction
      = some (mkAnalysisRecord v now1 now2 img s.environmentalData)
    ∧ (mkAnalysisRecord v now1 now2 img s.environmentalData).prediction = v
    ∧ (submitAnalysis now1 now2 (StreamOutcome.success frags) s).state.error
      = none := by
  have hp : parseJson (runChunks "" frags).1 = some v := by
    rw [runChunks_fst_nilAcc]; exact hparse
  have ha : addAnalysisToPlant s.plantProfiles plant.id
      (mkAnalysisRecord v now1 now2 img s.environmentalData)
      = some (s.plantProfiles.map
          (appendToProfile plant.id
            (mkAnalysisRecord v now1 now2 img s.environmentalData))) := by
    simp [addAnalysisToPlant, hmem]
  refine ⟨?_, rfl, ?_⟩ <;>
    simp [submitAnalysis, himg, hplant, hp, enterStreaming, ha]

/-- Witness for C1 on a two-fragment stream whose concatenation is the
Basil payload. -/
theorem submitAnalysis_success_fields_witness :
    sampleState.imageFile = some "leaf-image-bytes"
    ∧ sampleState.activePlant = some samplePlant
    ∧ parseJson (concatAll ["\x7b\"plantName\":", "\"Basil\"\x7d"]) = some basilJson
    ∧ sampleState.plantProfiles.any (fun p => p.id == samplePlant.id) = true
    ∧ (submitAnalysis "t1" "t2"
        (StreamOutcome.success ["\x7b\"plantName\":", "\"Basil\"\x7d"])
        sampleState).state.finalPrediction
        = some (mkAnalysisRecord basilJson "t1" "t2" "leaf-image-bytes"
            sampleState.environmentalData)
    ∧ (submitAnalysis "t1" "t2"
        (StreamOutcome.success ["\x7b\"plantName\":", "\"Basil\"\x7d"])
        sampleState).state.error = none :=
  ⟨rfl, rfl, rfl, rfl,
   (submitAnalysis_success_fields sampleState "leaf-image-bytes" samplePlant
      ["\x7b\"plantName\":", "\"Basil\"\x7d"] basilJson "t1" "t2"
      rfl rfl rfl rfl).1,
   (submitAnalysis_success_fields sampleState "leaf-image-bytes" samplePlant
      ["\x7b\"plantName\":", "\"Basil\"\x7d"] basilJson "t1" "t2"
      rfl rfl rfl rfl).2.2⟩

/-- Counterexample for C2: the fragment sequence `[badPayload]`
concatenates to syntactically valid JSON that is missing every required
`PredictionData` field and has `confidenceScore = 5`, outside `[0,1]`; the
claim requires the attempt to end `Failed` with a malformed-response
error and no commit, but the code ends with no error, a final prediction,
and one record committed to the active plant's history. -/
theorem submitAnalysis_accepts_invalid_payload :
    parseJson badPayload = some (Json.obj [("confidenceScore", Json.num 5 0)])
    ∧ (Json.obj [("confidenceScore", Json.num 5 0)]).getField "plantName" = none
    ∧ (submitAnalysis "t1" "t2" (StreamOutcome.success [badPayload])
        sampleState).state.error = none
    ∧ (submitAnalysis "t1" "t2" (StreamOutcome.success [badPayload])
        sampleState).state.finalPrediction.isSome = true
    ∧ ((findProfile (submitAnalysis "t1" "t2" (StreamOutcome.success [badPayload])
          sampleState).state.plantProfiles "p1").map
        (fun p => p.analysisHistory.length)) = some 1 :=
  ⟨rfl, rfl, rfl, rfl, rfl⟩

/-- Claim C2 (amended): after a normally terminated stream the code runs
only a syntactic `JSON.parse` — the `as PredictionData` cast performs no
runtime validation — so a payload that fails to parse yields the
malformed-response failure with no commit, while any payload that parses,
even one missing required fields or with `confidenceScore` outside [0,1]
or an invalid `progressAssessment`, ends the attempt successfully and
commits the record. -/
theorem submitAnalysis_syntactic_validation_only (s : AppState) (img : String)
    (plant : PlantProfile) (frags : List String) (now1 now2 : String)
    (himg : s.imageFile = some img) (hplant : s.activePlant = some plant)
    (hmem : s.plantProfiles.any (fun p => p.id == plant.id) = true) :
    (parseJson (concatAll frags) = none →
      (submitAnalysis now1 now2 (StreamOutcome.success frags) s).state.error
        = some malformedMsg
      ∧ (submitAnalysis now1 now2 (StreamOutcome.success frags) s).state.plantProfiles
        = s.plantProfiles
      ∧ (submitAnalysis now1 now2 (StreamOutcome.success frags) s).state.finalPrediction
        = none)
    ∧ ∀ v : Json, parseJson (concatAll frags) = some v →
      (submitAnalysis now1 now2 (StreamOutcome.success frags) s).state.error = none
      ∧ (submitAnalysis now1 now2 (StreamOutcome.success frags) s).state.plantProfiles
        = s.plantProfiles.map
            (appendToProfile plant.id
              (mkAnalysisRecord v now1 now2 img s.environmentalData)) := by
  constructor
  · intro hparse
    have hp : parseJson (runChunks "" frags).1 = none := by
      rw [runChunks_fst_nilAcc]; exact hparse
    refine ⟨?_, ?_, ?_⟩ <;> simp [submitAnalysis, himg, hplant, hp, enterStreaming]
  · intro v hparse
    have hp : parseJson (runChunks "" frags).1 = some v := by
      rw [runChunks_fst_nilAcc]; exact hparse
    have ha : addAnalysisToPlant s.plantProfiles plant.id
        (mkAnalysisRecord v now1 now2 img s.environmentalData)
        = some (s.plantProfiles.map
            (appendToProfile plant.id
              (mkAnalysisRecord v now1 now2 img s.environmentalData))) := by
      simp [addAnalysisToPlant, hmem]
    refine ⟨?_, ?_⟩ <;> simp [submitAnalysis, himg, hplant, hp, enterStreaming, ha]

/-- Witness for the amended C2: the invalid `badPayload` parses, so the
attempt ends with no error and the record is committed. -/
theorem submitAnalysis_syntactic_validation_only_witness :
    sampleState.imageFile = some "leaf-image-bytes"
    ∧ sampleState.activePlant = some samplePlant
    ∧ sampleState.plantProfiles.any (fun p => p.id == samplePlant.id) = true
    ∧ parseJson (concatAll [badPayload])
        = some (Json.obj [("confidenceScore", Json.num 5 0)])
    ∧ (submitAnalysis "t1" "t2" (StreamOutcome.success [badPayload])
        sampleState).state.error = none
    ∧ (submitAnalysis "t1" "t2" (StreamOutcome.success [badPayload])
        sampleState).state.plantProfiles
      = sampleState.plantProfiles.map
          (appendToProfile samplePlant.id
            (mkAnalysisRecord (Json.obj [("confidenceScore", Json.num 5 0)])
              "t1" "t2" "leaf-image-bytes" sampleState.environmentalData)) :=
  ⟨rfl, rfl, rfl, rfl,
   ((submitAnalysis_syntactic_validation_only sampleState "leaf-image-bytes"
      samplePlant [badPayload] "t1" "t2" rfl rfl rfl).2
      (Json.obj [("confidenceScore", Json.num 5 0)]) rfl).1,
   ((submitAnalysis_syntactic_validation_only sampleState "leaf-image-bytes"
      samplePlant [badPayload] "t1" "t2" rfl rfl rfl).2
      (Json.obj [("confidenceScore", Json.num 5 0)]) rfl).2⟩

/-- Claim C3: on an abnormally terminated stream the attempt ends failed
with the thrown reason's message preserved and no final prediction, and
the store is exactly what it was before; likewise, when the stream ends
normally but the accumulated payload fails to parse, the store is
unchanged.  No failure path commits. -/
theorem submitAnalysis_failure_preserves_store (s : AppState) (img : String)
    (plant : PlantProfile) (frags : List String) (thrown : Thrown)
    (now1 now2 : String)
    (himg : s.imageFile = some img) (hplant : s.activePlant = some plant) :
    ((submitAnalysis now1 now2 (StreamOutcome.failure frags thrown) s).state.plantProfiles
        = s.plantProfiles
      ∧ (submitAnalysis now1 now2 (StreamOutcome.failure frags thrown) s).state.error
        = some (errorMessageOf thrown)
      ∧ (submitAnalysis now1 now2 (StreamOutcome.failure frags thrown) s).state.finalPrediction
        = none)
    ∧ (parseJson (concatAll frags) = none →
        (submitAnalysis now1 now2 (StreamOutcome.success frags) s).state.plantProfiles
          = s.plantProfiles
        ∧ (submitAnalysis now1 now2 (StreamOutcome.success frags) s).state.error
          = some malformedMsg
        ∧ (submitAnalysis now1 now2 (StreamOutcome.success frags) s).state.finalPrediction
          = none) := by
  constructor
  · refine ⟨?_, ?_, ?_⟩ <;> simp [submitAnalysis, himg, hplant, enterStreaming]
  · intro hparse
    have hp : parseJson (runChunks "" frags).1 = none := by
      rw [runChunks_fst_nilAcc]; exact hparse
    refine ⟨?_, ?_, ?_⟩ <;> simp [submitAnalysis, himg, hplant, hp, enterStreaming]

/-- Witness for C3: a stream that throws a network `Error` after one
fragment leaves the store unchanged and stores the thrown message. -/
theorem submitAnalysis_failure_preserves_store_witness :
    sampleState.imageFile = some "leaf-image-bytes"
    ∧ sampleState.activePlant = some samplePlant
    ∧ (submitAnalysis "t1" "t2"
        (StreamOutcome.failure ["partial"] (Thrown.jsError "network down"))
        sampleState).state.plantProfiles = sampleState.plantProfiles
    ∧ (submitAnalysis "t1" "t2"
        (StreamOutcome.failure ["partial"] (Thrown.jsError "network down"))
        sampleState).state.error
      = some (errorMessageOf (Thrown.jsError "network down")) :=
  ⟨rfl, rfl,
   (submitAnalysis_failure_preserves_store sampleState "leaf-image-bytes"
      samplePlant ["partial"] (Thrown.jsError "network down") "t1" "t2"
      rfl rfl).1.1,
   (submitAnalysis_failure_preserves_store sampleState "leaf-image-bytes"
      samplePlant ["partial"] (Thrown.jsError "network down") "t1" "t2"
      rfl rfl).1.2.1⟩

/-- Counterexample for C6: the code reports both failure kinds through
the same string-typed `error` state; a transport failure whose `Error`
message happens to be the fixed malformed-response text is reported
identically to a post-stream parse failure, so the caller cannot tell the
two kinds apart. -/
theorem submitAnalysis_failure_kinds_collide :
    (submitAnalysis "t1" "t2"
        (StreamOutcome.failure ["x"] (Thrown.jsError malformedMsg))
        sampleState).state.error = some malformedMsg
    ∧ (submitAnalysis "t1" "t2" (StreamOutcome.success ["not json"])
        sampleState).state.error = some malformedMsg
    ∧ (submitAnalysis "t1" "t2"
        (StreamOutcome.failure ["x"] (Thrown.jsError malformedMsg))
        sampleState).state.error
      = (submitAnalysis "t1" "t2" (StreamOutcome.success ["not json"])
          sampleState).state.error :=
  ⟨rfl, rfl, rfl⟩

/-- Claim C6 (amended): a post-stream parse failure always sets the fixed
malformed-response message and keeps the full accumulated payload
readable in the streaming buffer, while a mid-stream transport failure
sets the thrown error's own message and keeps the fragments received so
far; the two reports are therefore distinguishable exactly when the
transport error's message differs from the fixed malformed-response
message. -/
theorem submitAnalysis_failure_reporting (s : AppState) (img : String)
    (plant : PlantProfile) (frags gfrags : List String) (now1 now2 m : String)
    (himg : s.imageFile = some img) (hplant : s.activePlant = some plant) :
    (parseJson (concatAll frags) = none →
      (submitAnalysis now1 now2 (StreamOutcome.success frags) s).state.error
        = some malformedMsg
      ∧ (submitAnalysis now1 now2 (StreamOutcome.success frags) s).state.streamingText
        = concatAll frags)
    ∧ ((submitAnalysis now1 now2 (StreamOutcome.failure gfrags (Thrown.jsError m))
          s).state.error = some m
      ∧ (submitAnalysis now1 now2 (StreamOutcome.failure gfrags (Thrown.jsError m))
          s).state.streamingText = concatAll gfrags) := by
  constructor
  · intro hparse
    refine ⟨?_, ?_⟩ <;>
      simp [submitAnalysis, himg, hplant, enterStreaming,
        runChunks_fst_nilAcc, hparse, errorMessageOf]
  · refine ⟨?_, ?_⟩ <;>
      simp [submitAnalysis, himg, hplant, enterStreaming,
        runChunks_fst_nilAcc, errorMessageOf]

/-- Witness for the amended C6 at concrete inputs: distinct messages for
a parse failure and a transport failure with message `net`. -/
theorem submitAnalysis_failure_reporting_witness :
    sampleState.imageFile = some "leaf-image-bytes"
    ∧ sampleState.activePlant = some samplePlant
    ∧ parseJson (concatAll ["not json"]) = none
    ∧ (submitAnalysis "t1" "t2" (StreamOutcome.success ["not json"])
        sampleState).state.error = some malformedMsg
    ∧ (submitAnalysis "t1" "t2" (StreamOutcome.success ["not json"])
        sampleState).state.streamingText = concatAll ["not json"]
    ∧ (submitAnalysis "t1" "t2"
        (StreamOutcome.failure ["par"] (Thrown.jsError "net"))
        sampleState).state.error = some "net" :=
  ⟨rfl, rfl, rfl,
   ((submitAnalysis_failure_reporting sampleState "leaf-image-bytes" samplePlant
      ["not json"] ["par"] "t1" "t2" "net" rfl rfl).1 rfl).1,
   ((submitAnalysis_failure_reporting sampleState "leaf-image-bytes" samplePlant
      ["not json"] ["par"] "t1" "t2" "net" rfl rfl).1 rfl).2,
   (submitAnalysis_failure_reporting sampleState "leaf-image-bytes" samplePlant
      ["not json"] ["par"] "t1" "t2" "net" rfl rfl).2.1⟩

/-- One fixed wall-clock reading, for two same-millisecond analyses. -/
def sameInstant : String := "2026-01-01T00:00:00.000Z"

/-- Claim C5 (code bug): the record is indeed the parsed payload extended
with id, date, an image reference and the environmental data, and it is
appended in order — but `id` is stamped from `new Date().toISOString()`
(line 139 of `src/types.ts`), so two analyses committed during the same
millisecond receive the identical id, contradicting the claim's
uniqueness requirement and the code's own `// unique ID for this
analysis` comment on the `id` field: after two successful submissions at
the same instant the active plant's history holds two records with equal
ids. -/
theorem submitAnalysis_duplicate_ids :
    ((findProfile (submitAnalysis sameInstant sameInstant
          (StreamOutcome.success [goodPayload])
          ((submitAnalysis sameInstant sameInstant
            (StreamOutcome.success [goodPayload]) sampleState).state)).state.plantProfiles
        "p1").map (fun p => p.analysisHistory.map (fun r => r.id)))
      = some [sameInstant, sameInstant]
    ∧ ((findProfile (submitAnalysis sameInstant sameInstant
          (StreamOutcome.success [goodPayload])
          ((submitAnalysis sameInstant sameInstant
            (StreamOutcome.success [goodPayload]) sampleState).state)).state.plantProfiles
        "p1").map (fun p => p.analysisHistory))
      = some [mkAnalysisRecord basilJson sameInstant sameInstant
                "leaf-image-bytes" sampleEnv,
              mkAnalysisRecord basilJson sameInstant sameInstant
                "leaf-image-bytes" sampleEnv] :=
  ⟨rfl, rfl⟩

theorem runChunks_snd_getElem (frags : List String) :
    ∀ (acc : String) (k : Nat), k ≤ frags.length →
      (runChunks acc frags).2[k]? = some (acc ++ concatAll (frags.take k)) := by
  induction frags with
  | nil =>
    intro acc k hk
    have hz : k = 0 := Nat.le_zero.mp hk
    subst hz
    simp [runChunks, concatAll]
  | cons c cs ih =>
    intro acc k hk
    match k with
    | 0 => simp [runChunks, concatAll]
    | k + 1 =>
      have hk' : k ≤ cs.length := Nat.succ_le_succ_iff.mp (by simpa using hk)
      have := ih (acc ++ c) k hk'
      simpa [runChunks, concatAll, String.append_assoc] using this

theorem submitAnalysis_buffers (s : AppState) (img : String)
    (plant : PlantProfile) (now1 now2 : String) (outcome : StreamOutcome)
    (himg : s.imageFile = some img) (hplant : s.activePlant = some plant) :
    (submitAnalysis now1 now2 outcome s).buffers
      = (runChunks "" (fragsOf outcome)).2 := by
  cases outcome with
  | success frags =>
    simp only [submitAnalysis, himg, hplant]
    cases hp : parseJson (runChunks "" frags).1 with
    | none => simp [hp, fragsOf]
    | some v =>
      simp only [hp]
      cases addAnalysisToPlant (enterStreaming s).plantProfiles plant.id
          (mkAnalysisRecord v now1 now2 img s.environmentalData) <;> simp [fragsOf]
  | failure frags thrown => simp [submitAnalysis, himg, hplant, fragsOf]

/-- Claim C7: entering the streaming phase clears the partial-text
buffer, the prior result and the prior error before any fragment is
consumed (`enterStreaming`, lines 117-121 precede the loop), and the
observable buffer value after `k` consumed fragments is exactly the
concatenation of the first `k` fragments in arrival order. -/
theorem submitAnalysis_clears_then_accumulates (s : AppState) (img : String)
    (plant : PlantProfile) (now1 now2 : String) (outcome : StreamOutcome)
    (himg : s.imageFile = some img) (hplant : s.activePlant = some plant) :
    (enterStreaming s).streamingText = ""
    ∧ (enterStreaming s).finalPrediction = none
    ∧ (enterStreaming s).error = none
    ∧ (submitAnalysis now1 now2 outcome s).buffers.length
        = (fragsOf outcome).length + 1
    ∧ ∀ k : Nat, k ≤ (fragsOf outcome).length →
        (submitAnalysis now1 now2 outcome s).buffers[k]?
          = some (concatAll ((fragsOf outcome).take k)) := by
  have hb := submitAnalysis_buffers s img plant now1 now2 outcome himg hplant
  refine ⟨rfl, rfl, rfl, ?_, ?_⟩
  · rw [hb, runChunks_snd_length]
  · intro k hk
    rw [hb, runChunks_snd_getElem (fragsOf outcome) "" k hk, String.empty_append]

/-- Witness for C7 on a concrete two-fragment stream. -/
theorem submitAnalysis_clears_then_accumulates_witness :
    sampleState.imageFile = some "leaf-image-bytes"
    ∧ sampleState.activePlant = some samplePlant
    ∧ (enterStreaming sampleState).streamingText = ""
    ∧ (submitAnalysis "t1" "t2" (StreamOutcome.success ["ab", "cd"])
        sampleState).buffers.length
        = (fragsOf (StreamOutcome.success ["ab", "cd"])).length + 1
    ∧ (submitAnalysis "t1" "t2" (StreamOutcome.success ["ab", "cd"])
        sampleState).buffers[2]?
        = some (concatAll ((fragsOf (StreamOutcome.success ["ab", "cd"])).take 2)) :=
  ⟨rfl, rfl, rfl,
   (submitAnalysis_clears_then_accumulates sampleState "leaf-image-bytes"
      samplePlant "t1" "t2" (StreamOutcome.success ["ab", "cd"]) rfl rfl).2.2.2.1,
   (submitAnalysis_clears_then_accumulates sampleState "leaf-image-bytes"
      samplePlant "t1" "t2" (StreamOutcome.success ["ab", "cd"]) rfl rfl).2.2.2.2
     2 (by decide)⟩

/-- Claim C9: iterating the store's append operation for records `rs`
over a profile whose current history is `h` yields history `h ++ rs`: for
a fresh profile (empty history) the resulting history is exactly `rs` —
length `N`, records in commit order, the element at index `N-1` the most
recently committed — and in general the prior history survives unchanged
as a prefix, appending being the store's only mutation. -/
theorem historyStore_append_only (profiles : List PlantProfile) (pid : String)
    (p : PlantProfile) (rs : List AnalysisRecord)
    (h : findProfile profiles pid = some p) :
    ((appendMany profiles pid rs).bind
        (fun ps => findProfile ps pid)).map (fun q => q.analysisHistory)
      = some (p.analysisHistory ++ rs) := by
  obtain ⟨ps, q, happ, hfind, hhist⟩ := appendMany_history rs profiles pid p h
  rw [happ]
  simp [hfind, hhist]

/-- Witness for C9: two records appended to the fresh profile `p1` give
history exactly those two records in commit order. -/
theorem historyStore_append_only_witness :
    findProfile [samplePlant, samplePlantTwo] "p1" = some samplePlant
    ∧ ((appendMany [samplePlant, samplePlantTwo] "p1"
          [sampleRecord, sampleRecord]).bind
        (fun ps => findProfile ps "p1")).map (fun q => q.analysisHistory)
      = some (samplePlant.analysisHistory ++ [sampleRecord, sampleRecord]) :=
  ⟨rfl,
   historyStore_append_only [samplePlant, samplePlantTwo] "p1" samplePlant
     [sampleRecord, sampleRecord] rfl⟩

/-- Counterexample for C10: invoked while the loading flag is already set
and no image is selected, `submitAnalysis` returns on the precondition
path without reaching the `finally` clause, so `isLoading` remains `true`
after the invocation terminates. -/
theorem submitAnalysis_loading_left_set :
    loadingNoImageState.isLoading = true
    ∧ (submitAnalysis "t1" "t2" (StreamOutcome.success ["x"])
        loadingNoImageState).state.isLoading = true :=
  ⟨rfl, rfl⟩

/-- Claim C10 (amended): on every path that passes the precondition check
— transport failure, parse failure, store failure or success — the
`finally` clause leaves `isLoading = false` when the invocation
terminates; the precondition-failure path returns early and leaves
`isLoading` unchanged, hence `false` whenever the attempt began from a
non-loading state. -/
theorem submitAnalysis_loading_cleared (s : AppState) (now1 now2 : String)
    (outcome : StreamOutcome) :
    (s.imageFile.isSome = true → s.activePlant.isSome = true →
      (submitAnalysis now1 now2 outcome s).state.isLoading = false)
    ∧ (s.imageFile = none ∨ s.activePlant = none →
      (submitAnalysis now1 now2 outcome s).state.isLoading = s.isLoading) := by
  constructor
  · intro h1 h2
    obtain ⟨img, himg⟩ := Option.isSome_iff_exists.mp h1
    obtain ⟨plant, hplant⟩ := Option.isSome_iff_exists.mp h2
    cases outcome with
    | success frags =>
      simp only [submitAnalysis, himg, hplant]
      cases hp : parseJson (runChunks "" frags).1 with
      | none => simp [hp]
      | some v =>
        simp only [hp]
        cases addAnalysisToPlant (enterStreaming s).plantProfiles plant.id
            (mkAnalysisRecord v now1 now2 img s.environmentalData) <;> simp
    | failure frags thrown => simp [submitAnalysis, himg, hplant]
  · intro h
    rcases h with h | h
    · simp [submitAnalysis, h]
    · cases hi : s.imageFile <;> simp [submitAnalysis, h, hi]

/-- Witness for the amended C10: with preconditions satisfied, even a
stream failing with a non-`Error` value leaves the loading flag false. -/
theorem submitAnalysis_loading_cleared_witness :
    sampleState.imageFile.isSome = true
    ∧ sampleState.activePlant.isSome = true
    ∧ (submitAnalysis "t1" "t2" (StreamOutcome.failure [] Thrown.otherValue)
        sampleState).state.isLoading = false :=
  ⟨rfl, rfl,
   (submitAnalysis_loading_cleared sampleState "t1" "t2"
      (StreamOutcome.failure [] Thrown.otherValue)).1 rfl rfl⟩
